import Mathlib

/-!
# Verification of the f1Replay replay synchronization engine

Shallow embedding of the replay core found in the two application variants
(`src/unnamed/part_003`, both halves are near-identical) together with the
progress-bar seek computation of `SessionControls` and the merge/prefetch
logic.  JavaScript numbers (millisecond timestamps, coordinates, telemetry
values, speed multipliers) are modelled as rationals; `new Date(s).getTime()`
parsing is modelled by carrying the parsed numeric value in the `date`
field of incoming samples.  React state setters for derived view data are
modelled by pure snapshot functions reading the buffers.
-/

namespace F1Replay

/-- Binary search helper, from `findIndexBefore` (part_003 lines 19-36 and
620-637): finds the index of the last element whose time is `<= targetTime`,
returning `-1` if there is none.  The JS loop state `low`, `high`, `result`
is passed explicitly; inside the loop `0 ≤ low ≤ high`, so the JS
`Math.floor((low + high) / 2)` is natural-number division by 2. -/
def findIndexBeforeGo {α : Type} [Inhabited α] (arr : List α) (targetTime : ℚ)
    (getTime : α → ℚ) (low : ℕ) (high : ℤ) (result : ℤ) : ℤ :=
  if h : (low : ℤ) ≤ high then
    let mid : ℕ := (low + high.toNat) / 2
    if getTime (arr.getD mid default) ≤ targetTime then
      findIndexBeforeGo arr targetTime getTime (mid + 1) high (mid : ℤ)
    else
      findIndexBeforeGo arr targetTime getTime low ((mid : ℤ) - 1) result
  else result
termination_by (high + 1 - (low : ℤ)).toNat
decreasing_by
  · omega
  · omega

/-- `findIndexBefore(arr, targetTime, getTime)`: entry point with
`low = 0`, `high = arr.length - 1`, `result = -1`. -/
def findIndexBefore {α : Type} [Inhabited α] (arr : List α) (targetTime : ℚ)
    (getTime : α → ℚ) : ℤ :=
  findIndexBeforeGo arr targetTime getTime 0 ((arr.length : ℤ) - 1) (-1)

/-- Sortedness of a sample sequence, non-decreasing in the injected
timestamp accessor (the `Stream` invariant of the spec, stated on adjacent
elements so it is directly decidable on concrete buffers). -/
def sortedByTime {α : Type} (getTime : α → ℚ) (arr : List α) : Prop :=
  List.Chain' (fun a b => getTime a ≤ getTime b) arr

instance {α : Type} (getTime : α → ℚ) (arr : List α) :
    Decidable (sortedByTime getTime arr) :=
  inferInstanceAs (Decidable (List.Chain' (fun a b => getTime a ≤ getTime b) arr))

lemma getD_eq_getElem {α : Type} (l : List α) (d : α) {i : ℕ}
    (h : i < l.length) : l.getD i d = l[i] := by
  simp [List.getD, List.getElem?_eq_getElem h]

/-- Index-wise consequence of `sortedByTime`. -/
lemma sortedByTime.index_le {α : Type} [Inhabited α] {getTime : α → ℚ}
    {arr : List α} (hs : sortedByTime getTime arr) {i j : ℕ}
    (hij : i ≤ j) (hj : j < arr.length) :
    getTime (arr.getD i default) ≤ getTime (arr.getD j default) := by
  haveI : IsTrans α (fun a b => getTime a ≤ getTime b) :=
    ⟨fun _ _ _ h1 h2 => le_trans h1 h2⟩
  have hp : List.Pairwise (fun a b => getTime a ≤ getTime b) arr :=
    (List.chain'_iff_pairwise).mp hs
  rcases Nat.lt_or_ge i j with hlt | hge
  · have := (List.pairwise_iff_getElem).mp hp i j (lt_of_le_of_lt hij hj) hj hlt
    rwa [getD_eq_getElem _ _ (lt_of_le_of_lt hij hj), getD_eq_getElem _ _ hj]
  · have : i = j := le_antisymm hij hge
    subst this
    exact le_refl _

/-- Correctness of the binary-search loop.  The invariants mirror the JS
loop: `result = low - 1`, everything to the left of `low` is `≤ t`, and
everything to the right of `high` is `> t`. -/
lemma findIndexBeforeGo_spec {α : Type} [Inhabited α] (arr : List α)
    (t : ℚ) (getTime : α → ℚ)
    (hsort : sortedByTime getTime arr) :
    ∀ n : ℕ, ∀ low : ℕ, ∀ high result : ℤ,
    (high + 1 - (low : ℤ)).toNat = n →
    high ≤ (arr.length : ℤ) - 1 →
    (low : ℤ) ≤ high + 1 →
    result = (low : ℤ) - 1 →
    (∀ i : ℕ, i < low → getTime (arr.getD i default) ≤ t) →
    (∀ i : ℕ, high < (i : ℤ) → i < arr.length → t < getTime (arr.getD i default)) →
    (findIndexBeforeGo arr t getTime low high result = -1 ∧
      ∀ i : ℕ, i < arr.length → t < getTime (arr.getD i default)) ∨
    (∃ k : ℕ, findIndexBeforeGo arr t getTime low high result = (k : ℤ) ∧
      k < arr.length ∧ getTime (arr.getD k default) ≤ t ∧
      ∀ i : ℕ, i < arr.length → getTime (arr.getD i default) ≤ t → i ≤ k) := by
  intro n
  induction n using Nat.strong_induction_on with
  | _ n ih =>
    intro low high result hn hhi hlo hres hleft hright
    rw [findIndexBeforeGo]
    by_cases h : (low : ℤ) ≤ high
    · rw [dif_pos h]
      have hhigh0 : 0 ≤ high := le_trans (Int.ofNat_nonneg low) h
      have hmidlo : low ≤ (low + high.toNat) / 2 := by omega
      have hmidhi : (low + high.toNat) / 2 ≤ high.toNat := by omega
      have hmidlen : (low + high.toNat) / 2 < arr.length := by omega
      by_cases hcmp : getTime (arr.getD ((low + high.toNat) / 2) default) ≤ t
      · rw [if_pos hcmp]
        apply ih ((high + 1 - ((((low + high.toNat) / 2) + 1 : ℕ) : ℤ)).toNat)
          (by omega) _ _ _ rfl hhi (by omega) (by push_cast; ring)
        · intro i hi
          exact le_trans (hsort.index_le (by omega) hmidlen) hcmp
        · exact hright
      · rw [if_neg hcmp]
        push_neg at hcmp
        apply ih ((((low + high.toNat) / 2 : ℕ) : ℤ) - 1 + 1 - (low : ℤ)).toNat
          (by omega) _ _ _ rfl (by omega) (by omega) hres hleft
        intro i hi hilen
        calc t < getTime (arr.getD ((low + high.toNat) / 2) default) := hcmp
          _ ≤ getTime (arr.getD i default) := hsort.index_le (by omega) hilen
    · rw [dif_neg h]
      push_neg at h
      have hlowhigh : (low : ℤ) = high + 1 := le_antisymm hlo (by omega)
      by_cases h66 : high < 0
      · left
        constructor
        · omega
        · intro i hi
          exact hright i (by omega) hi
      · right
        push_neg at h66
        refine ⟨low - 1, by omega, by omega, ?_, ?_⟩
        · exact hleft (low - 1) (by omega)
        · intro i hilen hle
          by_contra hgt
          push_neg at hgt
          exact absurd hle (not_le.mpr (hright i (by omega) hilen))

/-- Full specification of `findIndexBefore` on a sorted sequence: either it
returns `-1` and every sample's time exceeds `t` (in particular for the
empty sequence), or it returns the greatest index whose time is `≤ t`. -/
lemma findIndexBefore_correct {α : Type} [Inhabited α] (arr : List α)
    (t : ℚ) (getTime : α → ℚ) (hsort : sortedByTime getTime arr) :
    (findIndexBefore arr t getTime = -1 ∧
      ∀ i : ℕ, i < arr.length → t < getTime (arr.getD i default)) ∨
    (∃ k : ℕ, findIndexBefore arr t getTime = (k : ℤ) ∧
      k < arr.length ∧ getTime (arr.getD k default) ≤ t ∧
      ∀ i : ℕ, i < arr.length → getTime (arr.getD i default) ≤ t → i ≤ k) := by
  have := findIndexBeforeGo_spec arr t getTime hsort
    ((arr.length : ℤ) - 1 + 1 - (0 : ℤ)).toNat 0 ((arr.length : ℤ) - 1) (-1)
    rfl (le_refl _) (by omega) (by omega)
    (by intro i hi; omega)
    (by intro i hi hilen; omega)
  exact this

/-- On a sorted nonempty sequence whose last element's time is `≤ t`,
`findIndexBefore` returns the last index. -/
lemma findIndexBefore_last {α : Type} [Inhabited α] (arr : List α)
    (t : ℚ) (getTime : α → ℚ) (hsort : sortedByTime getTime arr)
    (hne : arr ≠ []) (hlast : getTime (arr.getD (arr.length - 1) default) ≤ t) :
    findIndexBefore arr t getTime = (arr.length : ℤ) - 1 := by
  have hlen : 0 < arr.length := List.length_pos.mpr hne
  rcases findIndexBefore_correct arr t getTime hsort with ⟨_, hall⟩ | ⟨k, hk, hklen, _, hmax⟩
  · exact absurd hlast (not_le.mpr (hall (arr.length - 1) (by omega)))
  · have := hmax (arr.length - 1) (by omega) hlast
    have : k = arr.length - 1 := by omega
    subst this
    rw [hk]
    omega

/-! ## Data model (`src/types.ts`, plus the `Buffered*` extensions of
part_003 lines 10-16).  String `date` fields are modelled by the parsed
millisecond value; presentation-only fields (session/meeting keys, URLs,
names) are dropped as they never flow through the replay core. -/

/-- `BufferedLocation` — a `Location` extended with the pre-parsed numeric
`timestamp` (part_003 lines 11-13). -/
structure BufferedLocation where
  driver_number : ℕ
  timestamp : ℚ
  x : ℚ
  y : ℚ
  z : ℚ
  deriving DecidableEq, Repr, Inhabited

/-- `BufferedCarData` — a `CarData` extended with the pre-parsed numeric
`timestamp` (part_003 lines 14-16). -/
structure BufferedCarData where
  driver_number : ℕ
  timestamp : ℚ
  rpm : ℚ
  speed : ℚ
  n_gear : ℚ
  throttle : ℚ
  brake : ℚ
  drs : ℚ
  deriving DecidableEq, Repr, Inhabited

/-- Raw fetched `Location` (`types.ts`); `date` holds the parsed time. -/
structure Location where
  driver_number : ℕ
  date : ℚ
  x : ℚ
  y : ℚ
  z : ℚ
  deriving DecidableEq, Repr, Inhabited

/-- Raw fetched `CarData` (`types.ts`); `date` holds the parsed time. -/
structure CarData where
  driver_number : ℕ
  date : ℚ
  rpm : ℚ
  speed : ℚ
  n_gear : ℚ
  throttle : ℚ
  brake : ℚ
  drs : ℚ
  deriving DecidableEq, Repr, Inhabited

/-- Timestamped samples of the statically downloaded session streams
(`types.ts`: `Weather`, `RaceControl`, `TeamRadio`, `Position`,
`Interval`), reduced to the fields the replay core reads. -/
structure Weather where
  date : ℚ
  air_temperature : ℚ
  track_temperature : ℚ
  deriving DecidableEq, Repr, Inhabited

structure RaceControl where
  date : ℚ
  message : String
  deriving DecidableEq, Repr, Inhabited

structure TeamRadio where
  date : ℚ
  driver_number : ℕ
  deriving DecidableEq, Repr, Inhabited

structure Position where
  date : ℚ
  driver_number : ℕ
  position : ℕ
  deriving DecidableEq, Repr, Inhabited

structure Interval where
  date : ℚ
  driver_number : ℕ
  gap_to_leader : Option ℚ
  deriving DecidableEq, Repr, Inhabited

/-- `fullSessionDataRef` (part_003 lines 85-97): the session-wide streams
downloaded once at session load. -/
structure FullSessionData where
  weather : List Weather
  raceControl : List RaceControl
  teamRadio : List TeamRadio
  positions : List Position
  intervals : List Interval
  deriving Repr

/-! ## Interpolation (`updateViewState`, part_003 lines 364-428 / 944-1002)

The bodies of the two bracket-and-interpolate branches, as functions of the
bracketing pair `prev = locs[idx]`, `next = locs[idx + 1]` and the query
time. -/

/-- Position interpolation between a bracketing pair (part_003 lines
376-392): blend `x` and `y` linearly when `tNext > tPrev`, otherwise keep
`prev` (the divide-by-zero guard for duplicate timestamps). -/
def locPairInterp (prev next : BufferedLocation) (timeMs : ℚ) : BufferedLocation :=
  if prev.timestamp < next.timestamp then
    let ratio := (timeMs - prev.timestamp) / (next.timestamp - prev.timestamp)
    { prev with
      x := prev.x + (next.x - prev.x) * ratio
      y := prev.y + (next.y - prev.y) * ratio }
  else prev

/-- Telemetry interpolation between a bracketing pair (part_003 lines
403-422): `speed`, `rpm`, `throttle`, `brake` are linearly blended and
passed through `Math.round`; `n_gear` and `drs` are taken from `prev`;
equal timestamps keep `prev` unchanged. -/
def carPairInterp (prev next : BufferedCarData) (timeMs : ℚ) : BufferedCarData :=
  if prev.timestamp < next.timestamp then
    let ratio := (timeMs - prev.timestamp) / (next.timestamp - prev.timestamp)
    { prev with
      speed := (round (prev.speed + (next.speed - prev.speed) * ratio) : ℚ)
      rpm := (round (prev.rpm + (next.rpm - prev.rpm) * ratio) : ℚ)
      throttle := (round (prev.throttle + (next.throttle - prev.throttle) * ratio) : ℚ)
      brake := (round (prev.brake + (next.brake - prev.brake) * ratio) : ℚ)
      n_gear := prev.n_gear
      drs := prev.drs }
  else prev

/-- The per-driver body of the location loop of `updateViewState` (part_003
lines 370-394): a car is produced only when a bracket index exists AND a
strictly later sample follows (`idx !== -1 && idx < locs.length - 1`);
otherwise the driver is absent from `activeCars`. -/
def interpolateLocation (locs : List BufferedLocation) (timeMs : ℚ) :
    Option BufferedLocation :=
  let idx := findIndexBefore locs timeMs (fun l => l.timestamp)
  if idx ≠ -1 ∧ idx < (locs.length : ℤ) - 1 then
    some (locPairInterp (locs.getD idx.toNat default)
      (locs.getD (idx.toNat + 1) default) timeMs)
  else none

/-- The telemetry branch of `updateViewState` (part_003 lines 398-428):
interpolate between brackets when a next sample exists, otherwise
(`else if (idx !== -1)`) return the last sample at or before `t`
verbatim. -/
def interpolateCarData (cdBuffer : List BufferedCarData) (timeMs : ℚ) :
    Option BufferedCarData :=
  let idx := findIndexBefore cdBuffer timeMs (fun c => c.timestamp)
  if idx ≠ -1 ∧ idx < (cdBuffer.length : ℤ) - 1 then
    some (carPairInterp (cdBuffer.getD idx.toNat default)
      (cdBuffer.getD (idx.toNat + 1) default) timeMs)
  else if idx ≠ -1 then some (cdBuffer.getD idx.toNat default)
  else none

/-- The `setCurrentCarData` value of `updateViewState` including the outer
guard `if (selectedDriver && carDataBufferRef.current.length > 0)`. -/
def currentCarDataView (selectedDriver : Option ℕ)
    (cdBuffer : List BufferedCarData) (timeMs : ℚ) : Option BufferedCarData :=
  if selectedDriver.isSome ∧ 0 < cdBuffer.length then
    interpolateCarData cdBuffer timeMs
  else none

/-! ## Buffer merge (`fetchDynamicBuffer`, part_003 lines 251-309 / 840-891) -/

/-- `{...l, timestamp: new Date(l.date).getTime()}`. -/
def toBufferedLocation (l : Location) : BufferedLocation :=
  { driver_number := l.driver_number, timestamp := l.date, x := l.x, y := l.y, z := l.z }

/-- `{...cd, timestamp: new Date(cd.date).getTime()}`. -/
def toBufferedCarData (cd : CarData) : BufferedCarData :=
  { driver_number := cd.driver_number, timestamp := cd.date, rpm := cd.rpm,
    speed := cd.speed, n_gear := cd.n_gear, throttle := cd.throttle,
    brake := cd.brake, drs := cd.drs }

/-- The location half of the merge (part_003 lines 277-287): each fetched
sample is pushed onto its driver's buffer in arrival order; the map of
buffers is modelled as a function from driver number to buffer, missing
drivers mapping to `[]`.  Note: no sort is applied on this path. -/
def mergeLocations (buf : ℕ → List BufferedLocation) (locs : List Location) :
    ℕ → List BufferedLocation :=
  locs.foldl
    (fun b l d => if d = l.driver_number then b d ++ [toBufferedLocation l] else b d)
    buf

/-- The telemetry half of the merge (part_003 lines 290-299): if any car
data arrived, push all of it and then sort the whole buffer by timestamp
(JS `Array.prototype.sort` is stable; so is `List.mergeSort`). -/
def mergeCarData (buf : List BufferedCarData) (carData : List CarData) :
    List BufferedCarData :=
  if 0 < carData.length then
    (buf ++ carData.map toBufferedCarData).mergeSort
      (fun a b => a.timestamp ≤ b.timestamp)
  else buf

/-! ## Replay controller state

All mutable refs and replay-relevant React state of the `App` component,
gathered into one record (`currentTimeRef`, `isPlayingRef`,
`isFetchingBuffer`, `bufferedUntilRef`, `locationBufferRef`,
`carDataBufferRef`, `fullSessionDataRef`, plus session bounds, speed and
the selected driver). -/
structure ReplayState where
  currentTime : ℚ
  sessionStart : ℚ
  sessionEnd : ℚ
  isPlaying : Bool
  playbackSpeed : ℚ
  selectedDriver : Option ℕ
  isFetchingBuffer : Bool
  bufferedUntil : ℚ
  locationBuffer : ℕ → List BufferedLocation
  carDataBuffer : List BufferedCarData
  fullSessionData : FullSessionData

/-- An asynchronous range fetch issued by `fetchDynamicBuffer`:
`getLocations(session, start, start+duration)` plus, when `driver` is set,
`getCarData(session, driver, start, start+duration)` in one `Promise.all`.
A failed HTTP request resolves to the empty list (`fetchAPI` in
`src/services/openf1.ts` lines 12-21 catches and returns `[]`), so a
completion always carries two (possibly empty) sample lists. -/
structure FetchRequest where
  start : ℚ
  duration : ℚ
  driver : Option ℕ
  deriving DecidableEq, Repr

/-- Synchronous prefix of `fetchDynamicBuffer` (part_003 lines 251-258):
the single in-flight flag suppresses the call when a fetch is already
outstanding; otherwise the flag is raised and the combined request is
issued.  `driverFilter` is the `selectedDriver` captured by the calling
closure. -/
def fetchDynamicBufferBegin (st : ReplayState) (startTime durationMs : ℚ)
    (driverFilter : Option ℕ) : ReplayState × Option FetchRequest :=
  if st.isFetchingBuffer then (st, none)
  else ({ st with isFetchingBuffer := true },
    some { start := startTime, duration := durationMs, driver := driverFilter })

/-- Completion of `fetchDynamicBuffer` (part_003 lines 272-308): merge the
fetched samples, raise the watermark to the fetch's end time when that is
later, and (in `finally`) drop the in-flight flag. -/
def fetchDynamicBufferComplete (st : ReplayState) (req : FetchRequest)
    (locs : List Location) (carData : List CarData) : ReplayState :=
  let endTime := req.start + req.duration
  let st1 := { st with
    locationBuffer := mergeLocations st.locationBuffer locs
    carDataBuffer := mergeCarData st.carDataBuffer carData }
  let st2 := if st1.bufferedUntil < endTime then { st1 with bufferedUntil := endTime } else st1
  { st2 with isFetchingBuffer := false }

/-! ## Replay loop and controls -/

/-- One invocation of `tick` (part_003 lines 316-350) with `delta` the
elapsed wall-clock milliseconds since the last processed tick.  A delta of
at most 32 ms is a no-op; otherwise virtual time advances by
`delta * playbackSpeed`, auto-pausing (without advancing) when the result
would pass `sessionEnd`; after advancing, the prefetch watermark check may
begin a fetch of `[bufferedUntil, bufferedUntil + max(30000, 10000*speed))`
when the lookahead drops below `max(20000, 5000*speed)`. -/
def tick (st : ReplayState) (delta : ℚ) : ReplayState × Option FetchRequest :=
  if st.isPlaying then
    if 32 < delta then
      let newTime := st.currentTime + delta * st.playbackSpeed
      if st.sessionEnd < newTime then ({ st with isPlaying := false }, none)
      else
        let st1 := { st with currentTime := newTime }
        let bufferThreshold := max 20000 (5000 * st.playbackSpeed)
        let timeToBufferEnd := st.bufferedUntil - newTime
        if timeToBufferEnd < bufferThreshold ∧ st.isFetchingBuffer = false then
          let fetchSize := max 30000 (10000 * st.playbackSpeed)
          fetchDynamicBufferBegin st1 st1.bufferedUntil fetchSize st1.selectedDriver
        else (st1, none)
    else (st, none)
  else (st, none)

/-- `handleSeek` (part_003 lines 486-498 / 1053-1064): set virtual time to
the target unmodified, then, when the target is past the watermark or more
than 600000 ms behind it, discard both buffers, reset the watermark to the
target and begin a 30 s fetch there.  No clamping to the session bounds
happens here. -/
def handleSeek (st : ReplayState) (time : ℚ) : ReplayState × Option FetchRequest :=
  let st1 := { st with currentTime := time }
  if st1.bufferedUntil < time ∨ time < st1.bufferedUntil - 600000 then
    let st2 := { st1 with
      locationBuffer := fun _ => []
      carDataBuffer := []
      bufferedUntil := time }
    fetchDynamicBufferBegin st2 time 30000 st2.selectedDriver
  else (st1, none)

/-- `handleProgressBarClick` of `SessionControls` (both variants): the click
fraction `x / width` is clamped into `[0, 1]` before being mapped onto the
session range, so this is where out-of-range seek targets are prevented. -/
def handleProgressBarClick (sessionStart sessionEnd x width : ℚ) : ℚ :=
  let percentage := max 0 (min 1 (x / width))
  let totalDuration := sessionEnd - sessionStart
  sessionStart + totalDuration * percentage

/-- `toggleDriverSelection` (part_003 lines 500-514 / 1066-1078): selecting
a different driver clears the telemetry buffer and immediately begins a
10 s fetch at the current time (the `selectedDriver` captured by
`fetchDynamicBuffer`'s closure is still the pre-switch value); re-selecting
the current driver deselects and clears the telemetry buffer. -/
def toggleDriverSelection (st : ReplayState) (driverNumber : ℕ) :
    ReplayState × Option FetchRequest :=
  if st.selectedDriver ≠ some driverNumber then
    let st1 := { st with selectedDriver := some driverNumber, carDataBuffer := [] }
    fetchDynamicBufferBegin st1 st.currentTime 10000 st.selectedDriver
  else ({ st with selectedDriver := none, carDataBuffer := [] }, none)

/-! ## Shared helper lemmas and concrete demonstration data -/

/-- Both branches of `handleSeek` set the virtual time to the unmodified
target. -/
lemma handleSeek_currentTime (st : ReplayState) (time : ℚ) :
    (handleSeek st time).1.currentTime = time := by
  simp only [handleSeek, fetchDynamicBufferBegin]
  split_ifs <;> rfl

/-- Whenever car data arrived, the telemetry buffer is sorted after the
merge (the final `sort` runs over the whole buffer). -/
lemma mergeCarData_sortedByTime (buf : List BufferedCarData)
    (cds : List CarData) (h : 0 < cds.length) :
    sortedByTime (fun c => c.timestamp) (mergeCarData buf cds) := by
  unfold mergeCarData
  rw [if_pos h]
  have hs := @List.sorted_mergeSort BufferedCarData
    (fun a b : BufferedCarData => decide (a.timestamp ≤ b.timestamp))
    (fun a b c h1 h2 => by
      simp only [decide_eq_true_eq] at h1 h2 ⊢
      exact le_trans h1 h2)
    (fun a b => by
      simp only [Bool.or_eq_true, decide_eq_true_eq]
      exact le_total a.timestamp b.timestamp)
    (buf ++ cds.map toBufferedCarData)
  have hp : List.Pairwise (fun a b : BufferedCarData => a.timestamp ≤ b.timestamp)
      ((buf ++ cds.map toBufferedCarData).mergeSort
        (fun a b => a.timestamp ≤ b.timestamp)) := by
    refine List.Pairwise.imp ?_ hs
    intro a b hab
    simpa using hab
  exact hp.chain'

/-- A small concrete replay state: session `[0, 10000]`, speed 10,
playing, watermark at 5000, empty buffers, no focus driver. -/
def demoState : ReplayState :=
  { currentTime := 0
    sessionStart := 0
    sessionEnd := 10000
    isPlaying := true
    playbackSpeed := 10
    selectedDriver := none
    isFetchingBuffer := false
    bufferedUntil := 5000
    locationBuffer := fun _ => []
    carDataBuffer := []
    fullSessionData :=
      { weather := [], raceControl := [], teamRadio := [], positions := [], intervals := [] } }

/-- A location stream for driver 1 with samples at t=1000 (x=0) and
t=2000 (x=100) — the example stream of the spec. -/
def demoLocs : List BufferedLocation :=
  [{ driver_number := 1, timestamp := 1000, x := 0, y := 0, z := 0 },
   { driver_number := 1, timestamp := 2000, x := 100, y := 0, z := 0 }]

/-- A telemetry stream for driver 1 with samples at t=1000 and t=2000. -/
def demoCds : List BufferedCarData :=
  [{ driver_number := 1, timestamp := 1000, rpm := 9000, speed := 100,
     n_gear := 3, throttle := 20, brake := 0, drs := 0 },
   { driver_number := 1, timestamp := 2000, rpm := 11000, speed := 200,
     n_gear := 7, throttle := 99, brake := 1, drs := 8 }]

/-! ## Claim C1 -/

/-- C1: for every array of samples sorted non-decreasing by timestamp and
every time `t`, `findIndexBefore` returns the greatest index `i` whose
sample timestamp is `≤ t`, and returns `-1` (NOT_FOUND) exactly when the
array is empty or every sample's timestamp exceeds `t`. -/
theorem findIndexBefore_greatest_le {α : Type} [Inhabited α] (arr : List α)
    (t : ℚ) (getTime : α → ℚ) (hsort : sortedByTime getTime arr) :
    (findIndexBefore arr t getTime = -1 ∧
      ∀ i : ℕ, i < arr.length → t < getTime (arr.getD i default)) ∨
    (∃ k : ℕ, findIndexBefore arr t getTime = (k : ℤ) ∧
      k < arr.length ∧ getTime (arr.getD k default) ≤ t ∧
      ∀ i : ℕ, i < arr.length → getTime (arr.getD i default) ≤ t → i ≤ k) :=
  findIndexBefore_correct arr t getTime hsort

/-- Witness for C1 at the concrete demo location stream and `t = 1500`. -/
theorem findIndexBefore_greatest_le_check :
    sortedByTime (fun l => l.timestamp) demoLocs ∧
    ((findIndexBefore demoLocs 1500 (fun l => l.timestamp) = -1 ∧
      ∀ i : ℕ, i < demoLocs.length →
        (1500 : ℚ) < (demoLocs.getD i default).timestamp) ∨
    (∃ k : ℕ, findIndexBefore demoLocs 1500 (fun l => l.timestamp) = (k : ℤ) ∧
      k < demoLocs.length ∧ (demoLocs.getD k default).timestamp ≤ 1500 ∧
      ∀ i : ℕ, i < demoLocs.length →
        (demoLocs.getD i default).timestamp ≤ 1500 → i ≤ k)) :=
  ⟨by norm_num [sortedByTime, demoLocs],
   findIndexBefore_greatest_le demoLocs 1500 (fun l => l.timestamp)
     (by norm_num [sortedByTime, demoLocs])⟩

/-! ## Claim C6 -/

/-- C6: bracketing samples with equal timestamps never interpolate — both
the position branch and the telemetry branch return the earlier sample
unchanged and the ratio division is never reached. -/
theorem equal_timestamp_brackets_keep_prev (prevL nextL : BufferedLocation)
    (prevC nextC : BufferedCarData) (t : ℚ)
    (hL : nextL.timestamp = prevL.timestamp)
    (hC : nextC.timestamp = prevC.timestamp) :
    locPairInterp prevL nextL t = prevL ∧ carPairInterp prevC nextC t = prevC := by
  constructor
  · unfold locPairInterp
    rw [hL, if_neg (lt_irrefl _)]
  · unfold carPairInterp
    rw [hC, if_neg (lt_irrefl _)]

/-- Witness for C6 at concrete equal-timestamp pairs. -/
theorem equal_timestamp_brackets_keep_prev_check :
    locPairInterp { driver_number := 1, timestamp := 1000, x := 0, y := 0, z := 0 }
        { driver_number := 1, timestamp := 1000, x := 100, y := 50, z := 0 } 1000 =
      { driver_number := 1, timestamp := 1000, x := 0, y := 0, z := 0 } ∧
    carPairInterp
        { driver_number := 1, timestamp := 1000, rpm := 9000, speed := 100,
          n_gear := 3, throttle := 20, brake := 0, drs := 0 }
        { driver_number := 1, timestamp := 1000, rpm := 11000, speed := 200,
          n_gear := 7, throttle := 99, brake := 1, drs := 8 } 1000 =
      { driver_number := 1, timestamp := 1000, rpm := 9000, speed := 100,
        n_gear := 3, throttle := 20, brake := 0, drs := 0 } :=
  equal_timestamp_brackets_keep_prev _ _ _ _ 1000 rfl rfl

/-- `findIndexBefore` returns exactly `k` when sample `k` is at or before
`t` and every later sample is strictly after `t`. -/
lemma findIndexBefore_eq_of {α : Type} [Inhabited α] (arr : List α) (t : ℚ)
    (getTime : α → ℚ) (hsort : sortedByTime getTime arr) (k : ℕ)
    (hklen : k < arr.length) (hle : getTime (arr.getD k default) ≤ t)
    (hnext : ∀ j : ℕ, k < j → j < arr.length → t < getTime (arr.getD j default)) :
    findIndexBefore arr t getTime = (k : ℤ) := by
  rcases findIndexBefore_correct arr t getTime hsort with ⟨_, hall⟩ | ⟨m, hm, hmlen, hmle, hmax⟩
  · exact absurd hle (not_le.mpr (hall k hklen))
  · have h1 : k ≤ m := hmax k hklen hle
    have h2 : ¬ k < m := fun hlt => absurd hmle (not_le.mpr (hnext m hlt hmlen))
    have : m = k := by omega
    subst this
    exact hm

/-! ## Claim C2 -/

/-- C2 (amended): when a prev sample at or before `t` exists but no sample
after it, only the focus-driver telemetry stream holds the last known
value verbatim; a position stream omits the subject from the snapshot
instead of holding its last value. -/
theorem telemetry_holds_last_position_omits
    (cds : List BufferedCarData) (locs : List BufferedLocation) (t : ℚ)
    (hcs : sortedByTime (fun c => c.timestamp) cds) (hcne : cds ≠ [])
    (hct : (cds.getD (cds.length - 1) default).timestamp ≤ t)
    (hls : sortedByTime (fun l => l.timestamp) locs) (hlne : locs ≠ [])
    (hlt : (locs.getD (locs.length - 1) default).timestamp ≤ t) :
    interpolateCarData cds t = some (cds.getD (cds.length - 1) default) ∧
    interpolateLocation locs t = none := by
  have hclen : 0 < cds.length := List.length_pos.mpr hcne
  have hllen : 0 < locs.length := List.length_pos.mpr hlne
  have hc := findIndexBefore_last cds t (fun c => c.timestamp) hcs hcne hct
  have hl := findIndexBefore_last locs t (fun l => l.timestamp) hls hlne hlt
  constructor
  · have h1 : ¬(((cds.length : ℤ) - 1) ≠ -1 ∧ ((cds.length : ℤ) - 1) < (cds.length : ℤ) - 1) := by
      rintro ⟨_, h⟩
      omega
    have h2 : ((cds.length : ℤ) - 1) ≠ -1 := by omega
    have h3 : ((cds.length : ℤ) - 1).toNat = cds.length - 1 := by omega
    simp only [interpolateCarData, hc]
    rw [if_neg h1, if_pos h2, h3]
  · have h1 : ¬(((locs.length : ℤ) - 1) ≠ -1 ∧ ((locs.length : ℤ) - 1) < (locs.length : ℤ) - 1) := by
      rintro ⟨_, h⟩
      omega
    simp only [interpolateLocation, hl]
    rw [if_neg h1]

/-- C2 counterexample: the spec's example stream (samples at t=1000 with
x=0 and t=2000 with x=100), queried at t=2500 as a position stream, yields
no sample at all rather than the claimed x=100. -/
theorem position_stream_drops_subject_after_last_sample :
    interpolateLocation demoLocs 2500 = none := by
  have hl := findIndexBefore_last demoLocs 2500 (fun l => l.timestamp)
    (by norm_num [sortedByTime, demoLocs]) (by simp [demoLocs])
    (by norm_num [demoLocs])
  have h1 : ¬(((demoLocs.length : ℤ) - 1) ≠ -1 ∧
      ((demoLocs.length : ℤ) - 1) < (demoLocs.length : ℤ) - 1) := by
    rintro ⟨_, h⟩
    omega
  simp only [interpolateLocation, hl]
  rw [if_neg h1]

/-- Witness for the amended C2 at the demo streams and `t = 2500`. -/
theorem telemetry_holds_last_position_omits_check :
    interpolateCarData demoCds 2500 = some (demoCds.getD (demoCds.length - 1) default) ∧
    interpolateLocation demoLocs 2500 = none :=
  telemetry_holds_last_position_omits demoCds demoLocs 2500
    (by norm_num [sortedByTime, demoCds]) (by simp [demoCds])
    (by norm_num [demoCds])
    (by norm_num [sortedByTime, demoLocs]) (by simp [demoLocs])
    (by norm_num [demoLocs])

/-! ## Claim C10 -/

/-- C10: with bracketing telemetry samples of strictly increasing
timestamps, the snapshot's `speed`, `rpm`, `throttle` and `brake` are the
linear blends rounded to the nearest integer (hence integral), while
`n_gear` and `drs` are copied from the earlier sample unchanged. -/
theorem telemetry_blend_rounds (cds : List BufferedCarData) (t : ℚ) (k : ℕ)
    (prev next : BufferedCarData)
    (hprev : prev = cds.getD k default) (hnext : next = cds.getD (k + 1) default)
    (hk : findIndexBefore cds t (fun c => c.timestamp) = (k : ℤ))
    (hk1 : k + 1 < cds.length)
    (hstrict : prev.timestamp < next.timestamp) :
    ∃ out, interpolateCarData cds t = some out ∧
      out.speed = (round (prev.speed + (next.speed - prev.speed) *
        ((t - prev.timestamp) / (next.timestamp - prev.timestamp))) : ℚ) ∧
      out.rpm = (round (prev.rpm + (next.rpm - prev.rpm) *
        ((t - prev.timestamp) / (next.timestamp - prev.timestamp))) : ℚ) ∧
      out.throttle = (round (prev.throttle + (next.throttle - prev.throttle) *
        ((t - prev.timestamp) / (next.timestamp - prev.timestamp))) : ℚ) ∧
      out.brake = (round (prev.brake + (next.brake - prev.brake) *
        ((t - prev.timestamp) / (next.timestamp - prev.timestamp))) : ℚ) ∧
      out.n_gear = prev.n_gear ∧ out.drs = prev.drs ∧
      (∃ i : ℤ, out.speed = (i : ℚ)) ∧ (∃ i : ℤ, out.rpm = (i : ℚ)) ∧
      (∃ i : ℤ, out.throttle = (i : ℚ)) ∧ (∃ i : ℤ, out.brake = (i : ℚ)) := by
  subst hprev hnext
  have h1 : (k : ℤ) ≠ -1 := by omega
  have h2 : (k : ℤ) < (cds.length : ℤ) - 1 := by omega
  simp only [interpolateCarData, hk]
  rw [if_pos ⟨h1, h2⟩]
  simp only [Int.toNat_ofNat]
  refine ⟨carPairInterp (cds.getD k default) (cds.getD (k + 1) default) t, rfl,
    ?_, ?_, ?_, ?_, ?_, ?_, ?_, ?_, ?_, ?_⟩ <;>
    simp only [carPairInterp, if_pos hstrict] <;>
    exact ⟨_, rfl⟩

/-- Witness for C10 at the demo telemetry stream and `t = 1500`: the
blends come out as speed 150, rpm 10000, throttle 60 (rounded from 59.5),
brake 1 (rounded from 0.5), with gear 3 and DRS 0 held from the earlier
sample. -/
theorem telemetry_blend_rounds_check :
    ∃ out, interpolateCarData demoCds 1500 = some out ∧
      out.speed = (round ((100 : ℚ) + (200 - 100) * ((1500 - 1000) / (2000 - 1000))) : ℚ) ∧
      out.rpm = (round ((9000 : ℚ) + (11000 - 9000) * ((1500 - 1000) / (2000 - 1000))) : ℚ) ∧
      out.throttle = (round ((20 : ℚ) + (99 - 20) * ((1500 - 1000) / (2000 - 1000))) : ℚ) ∧
      out.brake = (round ((0 : ℚ) + (1 - 0) * ((1500 - 1000) / (2000 - 1000))) : ℚ) ∧
      out.n_gear = 3 ∧ out.drs = 0 ∧
      (∃ i : ℤ, out.speed = (i : ℚ)) ∧ (∃ i : ℤ, out.rpm = (i : ℚ)) ∧
      (∃ i : ℤ, out.throttle = (i : ℚ)) ∧ (∃ i : ℤ, out.brake = (i : ℚ)) := by
  have hk : findIndexBefore demoCds 1500 (fun c => c.timestamp) = ((0 : ℕ) : ℤ) :=
    findIndexBefore_eq_of demoCds 1500 (fun c => c.timestamp)
      (by norm_num [sortedByTime, demoCds]) 0 (by simp [demoCds])
      (by norm_num [demoCds])
      (by
        intro j hj hjlen
        simp only [demoCds, List.length_cons, List.length_nil] at hjlen
        interval_cases j
        norm_num [demoCds])
  have h := telemetry_blend_rounds demoCds 1500 0
    (demoCds.getD 0 default) (demoCds.getD 1 default) rfl rfl hk
    (by simp [demoCds]) (by norm_num [demoCds])
  simpa [demoCds] using h

/-! ## Claim C3 -/

/-- C3 (amended): `handleSeek` applies the target unclamped; the clamping
lives in the progress-bar click handler, whose fraction is clamped into
`[0, 1]`, so every seek issued through the UI lands inside
`[sessionStart, sessionEnd]`. -/
theorem ui_seek_stays_in_session_bounds (st : ReplayState) (x width : ℚ)
    (hse : st.sessionStart ≤ st.sessionEnd) :
    st.sessionStart ≤
      (handleSeek st (handleProgressBarClick st.sessionStart st.sessionEnd x width)).1.currentTime ∧
    (handleSeek st (handleProgressBarClick st.sessionStart st.sessionEnd x width)).1.currentTime ≤
      st.sessionEnd := by
  rw [handleSeek_currentTime]
  unfold handleProgressBarClick
  have hp0 : (0 : ℚ) ≤ max 0 (min 1 (x / width)) := le_max_left _ _
  have hp1 : max 0 (min 1 (x / width)) ≤ 1 := max_le (by norm_num) (min_le_left _ _)
  have hd : (0 : ℚ) ≤ st.sessionEnd - st.sessionStart := sub_nonneg.mpr hse
  constructor
  · nlinarith [mul_nonneg hd hp0]
  · nlinarith [mul_le_mul_of_nonneg_left hp1 hd]

/-- Witness for the amended C3: a click at x=200 on a 100-wide bar (fraction
clamped to 1) seeks to the session end, not past it. -/
theorem ui_seek_stays_in_session_bounds_check :
    demoState.sessionStart ≤
      (handleSeek demoState
        (handleProgressBarClick demoState.sessionStart demoState.sessionEnd 200 100)).1.currentTime ∧
    (handleSeek demoState
      (handleProgressBarClick demoState.sessionStart demoState.sessionEnd 200 100)).1.currentTime ≤
      demoState.sessionEnd :=
  ui_seek_stays_in_session_bounds demoState 200 100 (by norm_num [demoState])

/-- C3 counterexample: seeking to 20000 in the session `[0, 10000]` sets
the virtual time to 20000 — `handleSeek` itself performs no clamping, so
the current time ends up outside the session bounds. -/
theorem seek_applies_out_of_bounds_target :
    demoState.sessionEnd = 10000 ∧
    (handleSeek demoState 20000).1.currentTime = 20000 ∧
    ¬ (handleSeek demoState 20000).1.currentTime ≤ demoState.sessionEnd := by
  refine ⟨rfl, handleSeek_currentTime demoState 20000, ?_⟩
  rw [handleSeek_currentTime]
  norm_num [demoState]

/-! ## Claim C5 -/

/-- C5: while playing, a tick whose elapsed delta is at most 32 ms is a
no-op; a processed tick advances virtual time by exactly
`delta * playbackSpeed`; when that would pass `sessionEnd` the clock
pauses instead and the time does not advance, so the current time never
exceeds `sessionEnd`. -/
theorem tick_advances_by_speed_and_autopauses (st : ReplayState) (delta : ℚ)
    (hp : st.isPlaying = true) (hb : st.currentTime ≤ st.sessionEnd) :
    (delta ≤ 32 → (tick st delta).1 = st) ∧
    (32 < delta → st.currentTime + delta * st.playbackSpeed ≤ st.sessionEnd →
      (tick st delta).1.currentTime = st.currentTime + delta * st.playbackSpeed ∧
      (tick st delta).1.isPlaying = true) ∧
    (32 < delta → st.sessionEnd < st.currentTime + delta * st.playbackSpeed →
      (tick st delta).1.isPlaying = false ∧
      (tick st delta).1.currentTime = st.currentTime) ∧
    (tick st delta).1.currentTime ≤ st.sessionEnd := by
  refine ⟨?_, ?_, ?_, ?_⟩
  · intro hd
    simp only [tick]
    rw [if_pos hp, if_neg (not_lt.mpr hd)]
  · intro hd hle
    simp only [tick]
    rw [if_pos hp, if_pos hd, if_neg (not_lt.mpr hle)]
    simp only [fetchDynamicBufferBegin]
    split_ifs <;> exact ⟨rfl, hp⟩
  · intro hd hgt
    simp only [tick]
    rw [if_pos hp, if_pos hd, if_pos hgt]
    exact ⟨rfl, rfl⟩
  · simp only [tick]
    rw [if_pos hp]
    by_cases hd : 32 < delta
    · rw [if_pos hd]
      by_cases hend : st.sessionEnd < st.currentTime + delta * st.playbackSpeed
      · rw [if_pos hend]
        exact hb
      · rw [if_neg hend]
        simp only [fetchDynamicBufferBegin]
        split_ifs <;> exact not_lt.mp hend
    · rw [if_neg hd]
      exact hb

/-- Witness for C5: the spec's example — speed 10, a 50 ms processed tick
advances the clock by 500; a 16 ms tick is a no-op; a tick that would pass
the session end pauses without advancing. -/
theorem tick_advances_by_speed_and_autopauses_check :
    ((16 : ℚ) ≤ 32 → (tick demoState 16).1 = demoState) ∧
    ((32 : ℚ) < 50 → demoState.currentTime + 50 * demoState.playbackSpeed ≤ demoState.sessionEnd →
      (tick demoState 50).1.currentTime = demoState.currentTime + 50 * demoState.playbackSpeed ∧
      (tick demoState 50).1.isPlaying = true) ∧
    ((32 : ℚ) < 50 → demoState.sessionEnd < demoState.currentTime + 50 * demoState.playbackSpeed →
      (tick demoState 50).1.isPlaying = false ∧
      (tick demoState 50).1.currentTime = demoState.currentTime) ∧
    (tick demoState 50).1.currentTime ≤ demoState.sessionEnd :=
  ⟨(tick_advances_by_speed_and_autopauses demoState 16 rfl (by norm_num [demoState])).1,
   fun _ => ((tick_advances_by_speed_and_autopauses demoState 50 rfl (by norm_num [demoState])).2.1 (by norm_num)),
   fun _ => ((tick_advances_by_speed_and_autopauses demoState 50 rfl (by norm_num [demoState])).2.2.1 (by norm_num)),
   (tick_advances_by_speed_and_autopauses demoState 50 rfl (by norm_num [demoState])).2.2.2⟩

/-! ## Claim C7 -/

/-- C7 (amended): after a completed fetch the watermark becomes
`max(old, fetch end)` — raised to the fetch's end time whenever that end
is later, for every sample outcome including the empty one a failed
request resolves to. -/
theorem watermark_rises_to_fetch_end (st : ReplayState) (req : FetchRequest)
    (locs : List Location) (carData : List CarData) :
    (fetchDynamicBufferComplete st req locs carData).bufferedUntil =
      max st.bufferedUntil (req.start + req.duration) := by
  simp only [fetchDynamicBufferComplete]
  split_ifs with h
  · exact (max_eq_right (le_of_lt h)).symm
  · exact (max_eq_left (not_lt.mp h)).symm

/-- C7 counterexample: a completed fetch of `[0, 1000)` while the
watermark stands at 5000 (the short focus-switch fetch can end below the
watermark) leaves the watermark at 5000 instead of setting it to the
fetch's end time 1000. -/
theorem watermark_not_set_to_earlier_fetch_end :
    demoState.bufferedUntil = 5000 ∧
    (fetchDynamicBufferComplete demoState
      { start := 0, duration := 1000, driver := none } [] []).bufferedUntil = 5000 ∧
    (5000 : ℚ) ≠ 0 + 1000 := by
  refine ⟨rfl, ?_, by norm_num⟩
  norm_num [fetchDynamicBufferComplete, mergeLocations, mergeCarData, demoState]

/-! ## Claim C8 -/

/-- C8: switching the focus driver (to a new driver or to none) empties
only the telemetry buffer; every per-driver location buffer and the shared
weather/standings/message data are untouched, so the position
interpolation of every driver in the next snapshot is unchanged. -/
theorem focus_switch_clears_only_telemetry (st : ReplayState) (driverNumber : ℕ) :
    (toggleDriverSelection st driverNumber).1.locationBuffer = st.locationBuffer ∧
    (toggleDriverSelection st driverNumber).1.fullSessionData = st.fullSessionData ∧
    (toggleDriverSelection st driverNumber).1.carDataBuffer = [] ∧
    ∀ (d : ℕ) (t : ℚ),
      interpolateLocation ((toggleDriverSelection st driverNumber).1.locationBuffer d) t =
        interpolateLocation (st.locationBuffer d) t := by
  have hbuf : (toggleDriverSelection st driverNumber).1.locationBuffer = st.locationBuffer := by
    simp only [toggleDriverSelection, fetchDynamicBufferBegin]
    split_ifs <;> rfl
  refine ⟨hbuf, ?_, ?_, ?_⟩
  · simp only [toggleDriverSelection, fetchDynamicBufferBegin]
    split_ifs <;> rfl
  · simp only [toggleDriverSelection, fetchDynamicBufferBegin]
    split_ifs <;> rfl
  · intro d t
    rw [hbuf]

/-! ## Claim C9 -/

/-- C9 (amended): one single in-flight flag guards the combined dynamic
fetch (locations plus, when a driver is focused, that driver's telemetry,
requested together): starting a fetch from an idle state issues exactly
one request and raises the flag, and any further begin attempt while that
fetch is outstanding issues nothing. -/
theorem single_inflight_flag_suppresses (st : ReplayState)
    (s1 d1 s2 d2 : ℚ) (v1 v2 : Option ℕ) (h : st.isFetchingBuffer = false) :
    ((fetchDynamicBufferBegin st s1 d1 v1).2).isSome = true ∧
    ((fetchDynamicBufferBegin st s1 d1 v1).1).isFetchingBuffer = true ∧
    (fetchDynamicBufferBegin (fetchDynamicBufferBegin st s1 d1 v1).1 s2 d2 v2).2 = none := by
  simp [fetchDynamicBufferBegin, h]

/-- Witness for the amended C9 at the demo state. -/
theorem single_inflight_flag_suppresses_check :
    ((fetchDynamicBufferBegin demoState 5000 30000 none).2).isSome = true ∧
    ((fetchDynamicBufferBegin demoState 5000 30000 none).1).isFetchingBuffer = true ∧
    (fetchDynamicBufferBegin (fetchDynamicBufferBegin demoState 5000 30000 none).1
      0 10000 (some 44)).2 = none :=
  single_inflight_flag_suppresses demoState 5000 30000 0 10000 none (some 44) rfl

/-- A state in which the location-group fetch is outstanding (the flag is
set) and no driver is focused, so the outstanding fetch carries no
telemetry. -/
def busyState : ReplayState := { demoState with isFetchingBuffer := true }

/-- C9 counterexample: with a location-group fetch outstanding and no
focus driver, selecting driver 44 issues no telemetry fetch — the shared
flag suppresses it, so the groups are not independent. -/
theorem focus_fetch_suppressed_by_location_fetch :
    busyState.isFetchingBuffer = true ∧ busyState.selectedDriver = none ∧
    (toggleDriverSelection busyState 44).2 = none := by
  refine ⟨rfl, rfl, ?_⟩
  simp [toggleDriverSelection, fetchDynamicBufferBegin, busyState, demoState]

/-! ## Claim C4 -/

/-- A fetched location batch for driver 1 arriving out of timestamp order
(t=2000 before t=1000). -/
def outOfOrderLocs : List Location :=
  [{ driver_number := 1, date := 2000, x := 0, y := 0, z := 0 },
   { driver_number := 1, date := 1000, x := 100, y := 0, z := 0 }]

/-- The same out-of-order arrival as telemetry samples. -/
def outOfOrderCds : List CarData :=
  [{ driver_number := 1, date := 2000, rpm := 11000, speed := 200,
     n_gear := 7, throttle := 99, brake := 1, drs := 8 },
   { driver_number := 1, date := 1000, rpm := 9000, speed := 100,
     n_gear := 3, throttle := 20, brake := 0, drs := 0 }]

/-- C4: evaluation at the failing input — the location merge appends in
arrival order without sorting, leaving driver 1's buffer with timestamps
`[2000, 1000]`, which violates the ascending invariant; the telemetry
merge of the same out-of-order arrival does sort its buffer. -/
theorem location_merge_not_sorted_on_out_of_order_fetch :
    mergeLocations (fun _ => []) outOfOrderLocs 1 =
      [{ driver_number := 1, timestamp := 2000, x := 0, y := 0, z := 0 },
       { driver_number := 1, timestamp := 1000, x := 100, y := 0, z := 0 }] ∧
    ¬ sortedByTime (fun l => l.timestamp) (mergeLocations (fun _ => []) outOfOrderLocs 1) ∧
    sortedByTime (fun c => c.timestamp) (mergeCarData [] outOfOrderCds) := by
  have heq : mergeLocations (fun _ => []) outOfOrderLocs 1 =
      [{ driver_number := 1, timestamp := 2000, x := 0, y := 0, z := 0 },
       { driver_number := 1, timestamp := 1000, x := 100, y := 0, z := 0 }] := rfl
  refine ⟨heq, ?_, mergeCarData_sortedByTime [] outOfOrderCds (by simp [outOfOrderCds])⟩
  rw [heq]
  norm_num [sortedByTime]

end F1Replay
